import Mathlib

/-!
Shallow embedding of the embedpls LSP server core (Go sources) and proofs
about the properties its specification claims.

Go strings are modelled as `List Char`; Go byte lengths via UTF-8 sizes.
The `safe.Map` concurrent store is modelled as an association list viewed
single-threaded (the claims under scrutiny are sequential observations;
the RWMutex only serializes operations).
-/

namespace Embedpls

/-- A Go string, modelled as its character sequence. -/
abbrev GoStr := List Char

/-- Character list of a Lean string literal (Go string literal). -/
def gostr (s : String) : GoStr := s.data

/-- UTF-8 byte length of a character sequence: Go's `len(string)`. -/
def utf8Len : GoStr → Nat
  | [] => 0
  | c :: t => c.utf8Size + utf8Len t

namespace safe

/-- Model of `safe.Map` from internal/safe: a Go `map[K]V` guarded by an
RWMutex, viewed as an association list with distinct keys (Go maps never
hold duplicate keys; states reachable from `NewSafeMap` keep keys nodup). -/
abbrev Map (K V : Type) := List (K × V)

variable {K V : Type} [DecidableEq K]

/-- `NewSafeMap`: the empty map. -/
def Map.new : Map K V := []

/-- `Get`: first-match lookup; Go returns `(pointer-to-value, ok)`,
modelled as `Option V`. -/
def Map.get : Map K V → K → Option V
  | [], _ => none
  | (k', v) :: t, k => if k' = k then some v else Map.get t k

/-- `Set`: Go `m[key] = value` replaces the binding in place or appends. -/
def Map.set : Map K V → K → V → Map K V
  | [], k, v => [(k, v)]
  | (k', v') :: t, k, v =>
      if k' = k then (k, v) :: t else (k', v') :: Map.set t k v

/-- `Delete`: Go `delete(m, key)` removes the binding of `key`. -/
def Map.del : Map K V → K → Map K V
  | [], _ => []
  | (k', v') :: t, k => if k' = k then t else (k', v') :: Map.del t k

/-- `Len`: Go `len(m)`. -/
def Map.len (m : Map K V) : Nat := m.length

/-- `Values`: snapshot of all values (Go iteration order is unspecified;
we expose the underlying order). -/
def Map.values (m : Map K V) : List V := m.map Prod.snd

/-- Keys of the map are pairwise distinct (invariant of every state
reachable from `NewSafeMap`, since Go maps cannot hold duplicates). -/
def Map.KeysNodup (m : Map K V) : Prop := (m.map Prod.fst).Nodup

instance (m : Map K V) : Decidable (Map.KeysNodup m) := by
  unfold Map.KeysNodup; infer_instance

theorem Map.get_set_self (m : Map K V) (k : K) (v : V) :
    Map.get (Map.set m k v) k = some v := by
  induction m with
  | nil => simp [Map.set, Map.get]
  | cons h t ih =>
      obtain ⟨k', v'⟩ := h
      by_cases hk : k' = k
      · simp [Map.set, hk, Map.get]
      · simp [Map.set, hk, Map.get, ih]

theorem Map.get_set_ne (m : Map K V) (k u : K) (v : V) (h : u ≠ k) :
    Map.get (Map.set m k v) u = Map.get m u := by
  have hku : ¬k = u := fun e => h e.symm
  induction m with
  | nil => simp [Map.set, Map.get, hku]
  | cons hd t ih =>
      obtain ⟨k', v'⟩ := hd
      by_cases hk : k' = k
      · subst hk
        simp [Map.set, Map.get, hku]
      · simp [Map.set, hk, Map.get, ih]

theorem Map.get_eq_none_of_not_mem (m : Map K V) (k : K)
    (h : k ∉ m.map Prod.fst) : Map.get m k = none := by
  induction m with
  | nil => simp [Map.get]
  | cons hd t ih =>
      obtain ⟨k', v'⟩ := hd
      simp only [List.map_cons, List.mem_cons, not_or] at h
      have hk : ¬k' = k := fun e => h.1 (Eq.symm e)
      simp only [Map.get, if_neg hk]
      exact ih h.2

theorem Map.get_del_self (m : Map K V) (k : K) (h : Map.KeysNodup m) :
    Map.get (Map.del m k) k = none := by
  induction m with
  | nil => simp [Map.del, Map.get]
  | cons hd t ih =>
      obtain ⟨k', v'⟩ := hd
      unfold Map.KeysNodup at h
      simp only [List.map_cons, List.nodup_cons] at h
      by_cases hk : k' = k
      · subst hk
        simp only [Map.del, if_pos rfl]
        exact Map.get_eq_none_of_not_mem t k' h.1
      · simp only [Map.del, if_neg hk, Map.get, if_neg hk]
        exact ih h.2

omit [DecidableEq K] in
theorem Map.values_len (m : Map K V) :
    (Map.values m).length = Map.len m := by
  simp [Map.values, Map.len]

end safe

/-- `strings.HasPrefix` on character lists. -/
def startsWith : GoStr → GoStr → Bool
  | _, [] => true
  | [], _ :: _ => false
  | c :: s, p :: ps => c = p && startsWith s ps

/-- `strings.HasSuffix` on character lists. -/
def hasSuffix (s suf : GoStr) : Bool := startsWith s.reverse suf.reverse

/-- RE2 character class `\s`, i.e. `[\t\n\f\r ]`. -/
def isSpaceGo (c : Char) : Bool :=
  c = ' ' || c = '\t' || c = '\n' || c = '\x0c' || c = '\r'

/-- `strings.Split(s, "\n")`: the list of lines, empty string giving one
empty line. -/
def splitLines : GoStr → List GoStr
  | [] => [[]]
  | c :: rest =>
      if c = '\n' then [] :: splitLines rest
      else
        match splitLines rest with
        | [] => [[c]]
        | l :: ls => (c :: l) :: ls

/-- Capture group 1 of `embedRegex`
(`^\s*//\s*go:embed\s+(.+)\s*$`, leftmost-first semantics).
With greedy `\s+` and greedy `(.+)`, the capture is everything after the
maximal whitespace run following the keyword; when only whitespace
follows, backtracking leaves the last whitespace character as capture. -/
def embedLineCapture (line : GoStr) : Option GoStr :=
  let a := line.dropWhile isSpaceGo
  if startsWith a (gostr "//") then
    let m := (a.drop 2).dropWhile isSpaceGo
    if startsWith m (gostr "go:embed") then
      let r := m.drop 8
      let t := r.dropWhile isSpaceGo
      if (r.takeWhile isSpaceGo).isEmpty then none
      else if t.isEmpty then
        if 2 ≤ r.length then some (r.drop (r.length - 1)) else none
      else some t
    else none
  else none

/-- `\s*\*/` matches at the head of `l` (a remainder may follow). -/
def closeOk : GoStr → Bool
  | [] => false
  | c :: rest => startsWith (c :: rest) (gostr "*/") || (isSpaceGo c && closeOk rest)

/-- Lazy `(.+?)` followed by `\s*\*/`: shortest nonempty capture whose
remainder matches the closing pattern. -/
def lazyCapture : GoStr → GoStr → Option GoStr
  | [], _ => none
  | c :: rest, acc =>
      if closeOk rest then some (acc ++ [c])
      else lazyCapture rest (acc ++ [c])

/-- Greedy `\s+` with backtracking: try consuming `i` whitespace
characters, then `i - 1`, …, down to `1`. -/
def b2Try (r : GoStr) : Nat → Option GoStr
  | 0 => none
  | i + 1 =>
      match lazyCapture (r.drop (i + 1)) [] with
      | some cap => some cap
      | none => b2Try r i

/-- Capture group 2 of `embedRegex`
(`/\*\s*go:embed\s+(.+?)\s*\*/`) when the block pattern matches starting
exactly at the head of `l`. -/
def embedBlockCaptureAt (l : GoStr) : Option GoStr :=
  if startsWith l (gostr "/*") then
    let m := (l.drop 2).dropWhile isSpaceGo
    if startsWith m (gostr "go:embed") then
      let r := m.drop 8
      b2Try r (r.takeWhile isSpaceGo).length
    else none
  else none

/-- Capture group 2 of `embedRegex` at the leftmost matching position. -/
def embedBlockCapture : GoStr → Option GoStr
  | [] => none
  | c :: rest =>
      match embedBlockCaptureAt (c :: rest) with
      | some cap => some cap
      | none => embedBlockCapture rest

/-- `parsers.State`. -/
inductive State
  | StateUnknown
  | StateInComment
deriving DecidableEq, Repr

/-- The `(string, State, error)` triple returned by `ParseSourcePosition`. -/
structure ParseReturn where
  path : GoStr
  state : State
  err : Option GoStr
deriving DecidableEq, Repr

/-- Outcome of a Go function call that may hit a runtime panic. -/
inductive GoResult (α : Type)
  | ok (val : α)
  | panicked
deriving DecidableEq, Repr

/-- `2^32`, the modulus of Go `uint32` arithmetic. -/
def UINT32MOD : Nat := 4294967296

/-- `parsers.ParseSourcePosition` from cmd/cmd-lsp.go.
`posLine` is the `uint32` value `position.Line`; the code indexes
`lines[position.Line-1]`, where the subtraction wraps modulo `2^32`, and
an out-of-range index is a runtime panic.  In the `//` branch the code
consults capture group 1 of `embedRegex` and in the `/*` branch capture
group 2; a nonempty capture is returned as the path. -/
def ParseSourcePosition (source : Option GoStr) (posLine : Nat) :
    GoResult ParseReturn :=
  match source with
  | none => .ok ⟨[], .StateUnknown, none⟩
  | some s =>
      let lines := splitLines s
      let idx := (posLine + (UINT32MOD - 1)) % UINT32MOD
      if h : idx < lines.length then
        let line := lines.get ⟨idx, h⟩
        if line.length = 0 then .ok ⟨[], .StateUnknown, none⟩
        else if startsWith line (gostr "//") then
          match embedLineCapture line with
          | some cap => .ok ⟨cap, .StateInComment, none⟩
          | none => .ok ⟨[], .StateInComment, none⟩
        else if startsWith line (gostr "/*") then
          match embedBlockCapture line with
          | some cap => .ok ⟨cap, .StateInComment, none⟩
          | none => .ok ⟨[], .StateInComment, none⟩
        else .ok ⟨[], .StateUnknown, none⟩
      else .panicked

/- The repository's own test table (internal/parsers tests), replayed on
the model. -/

example : ParseSourcePosition none 1 = .ok ⟨[], .StateUnknown, none⟩ := by
  decide

example : ParseSourcePosition (some (gostr "")) 1 =
    .ok ⟨[], .StateUnknown, none⟩ := by decide

example : ParseSourcePosition (some (gostr "// go:embed file.txt")) 1 =
    .ok ⟨gostr "file.txt", .StateInComment, none⟩ := by decide

example : ParseSourcePosition (some (gostr "// This is a comment")) 1 =
    .ok ⟨[], .StateInComment, none⟩ := by decide

example : ParseSourcePosition (some (gostr "/* go:embed file.txt */")) 1 =
    .ok ⟨gostr "file.txt", .StateInComment, none⟩ := by decide

example : ParseSourcePosition (some (gostr "/* This is a comment */")) 1 =
    .ok ⟨[], .StateInComment, none⟩ := by decide

example : ParseSourcePosition (some (gostr "fmt.Println(\"Hello, world!\")")) 1 =
    .ok ⟨[], .StateUnknown, none⟩ := by decide

/-- `rpc.Encode` from internal/rpc/encode.go.  `ctxDone` tells whether
`ctx.Done()` is already closed when the `select` runs.  `marshalled`
stands for the compact JSON serialization of the message as produced by
`json.Marshal`-style encoding with `SetEscapeHTML(false)`; the code's
`json.Encoder.Encode` writes that serialization followed by a single
`'\n'` into the buffer (the `TrimSuffix` that would remove it is commented
out), and the header length is `len(body)` of exactly those buffered
bytes.  The encoder's own error return is out of scope: the claims range
over messages whose serialization succeeds. -/
def Encode (ctxDone : Bool) (marshalled : GoStr) : Except Unit GoStr :=
  if ctxDone then .error ()
  else
    let body := marshalled ++ ['\n']
    .ok (gostr "Content-Length: " ++ Nat.toDigits 10 (utf8Len body)
          ++ gostr "\r\n\r\n" ++ body)

theorem utf8Len_append_newline (m : GoStr) :
    utf8Len (m ++ ['\n']) = utf8Len m + 1 := by
  induction m with
  | nil => rfl
  | cons c t ih =>
      show c.utf8Size + utf8Len (t ++ ['\n']) = c.utf8Size + utf8Len t + 1
      rw [ih]
      omega

/-- `context.CancelFunc` handles, identified by a token; "invoking" a
handle is observed by emitting its token. -/
abbrev CancelFunc := Nat

/-- The `lspHandler` struct: `documents` is a `*safe.Map[uri.URI, string]`
and `cancelMap` a `*safe.Map[int, context.CancelFunc]`; a nil pointer is
`none`.  `safe.Map` methods dereference their receiver, so calling any of
them through a nil pointer is a runtime panic. -/
structure LspState where
  documents : safe.Map GoStr GoStr
  cancelMap : Option (safe.Map Int CancelFunc)
deriving DecidableEq

/-- `NewLSPHandler`: the struct literal sets only `documents`; `cancelMap`
stays the nil pointer (no other code ever assigns it). -/
def NewLSPHandler (documents : safe.Map GoStr GoStr) : LspState :=
  { documents := documents, cancelMap := none }

/-- A JSON-RPC request id as decoded into Go `interface{}`: JSON numbers
decode to `float64` (modelled at integral precision, as `int(v)` truncates
to these values for LSP ids), JSON strings to `string`; anything else is
`other`. -/
inductive JsonId
  | num (n : Int)
  | str (s : GoStr)
  | other
deriving DecidableEq

/-- Decimal digit run for `strconv.Atoi` (error on a non-digit or on an
empty run; the int-range overflow error is out of modelled range). -/
def decDigitsAux : GoStr → Nat → Option Nat
  | [], acc => some acc
  | c :: t, acc =>
      if c.isDigit then decDigitsAux t (acc * 10 + (c.toNat - 48))
      else none

/-- `strconv.Atoi`: optional sign followed by at least one decimal digit. -/
def goAtoi (s : GoStr) : Option Int :=
  match s with
  | [] => none
  | '-' :: t =>
      if t.isEmpty then none
      else (decDigitsAux t 0).map (fun n => -(n : Int))
  | '+' :: t =>
      if t.isEmpty then none
      else (decDigitsAux t 0).map (fun n => (n : Int))
  | _ => (decDigitsAux s 0).map (fun n => (n : Int))

/-- `lsp.ParseCancelParams` from internal/lsp/responses.go: an `int32`
assertion (never satisfied by JSON-decoded values), then a `float64`
assertion, then a `string` assertion whose value is passed to
`strconv.Atoi` before the assertion's own flag is checked — so for a
non-string, non-number id `Atoi("")` fails first and the final
"invalid id type" return is unreachable. -/
def ParseCancelParams : JsonId → Except Unit Int
  | .num n => .ok n
  | .str s =>
      match goAtoi s with
      | some k => .ok k
      | none => .error ()
  | .other => .error ()

/-- Parameters of `textDocument/didChange`: the document URI and the texts
of the `ContentChanges` list (full-replacement payloads). -/
structure DidChangeParams where
  uri : GoStr
  contentChanges : List GoStr

/-- Parameters of `textDocument/didOpen`. -/
structure DidOpenParams where
  uri : GoStr
  text : GoStr

/-- A successfully decoded incoming message, one constructor per method
handled by the dispatcher's `switch`. -/
inductive Msg
  | cancelRequest (id : JsonId)
  | exit
  | didClose (uri : GoStr)
  | initedNote
  | willSave
  | didSave (uri : GoStr)
  | shutdown (reqId : Int)
  | didChange (p : DidChangeParams)
  | initRequest (reqId : Int)
  | didOpen (p : DidOpenParams)
  | unknownMethod

/-- The typed replies the modelled branches can produce (each echoes the
request's id). -/
inductive Resp
  | cancelResponse (id : Int)
  | shutdownResponse (id : Int)
  | initResponse (id : Int)
deriving DecidableEq

/-- Result of `lspHandler.handle` on one message: the `(MethodActor,
error)` pair with the updated shared state and the cancellation handles
invoked on the way, or `os.Exit(0)`, or a runtime panic. -/
inductive HandleOutcome
  | ok (resp : Option Resp) (st : LspState) (invoked : List CancelFunc)
  | err (st : LspState)
  | exited (invoked : List CancelFunc)
  | panicked (st : LspState)
deriving DecidableEq

/-- `os.ReadFile` stub with no readable files (the directory with no
files; only `didSave` consults it). -/
def readFileNone : GoStr → Except Unit GoStr := fun _ => .error ()

/-- `lspHandler.handle`: the dispatcher `switch` over the decoded message.
`readFile` is the single-file read capability used by the `didSave`
branch (`os.ReadFile`).  The four request methods whose handlers consult
the directory-listing collaborator or code absent from the excerpted
sources (`completion`, `hover`, `definition`, `codeAction`) are outside
this model; every branch below is translated from the source switch. -/
def handle (readFile : GoStr → Except Unit GoStr) (st : LspState) :
    Msg → HandleOutcome
  | .cancelRequest jid =>
      match ParseCancelParams jid with
      | .error _ => .err st
      | .ok id =>
          match st.cancelMap with
          | none => .panicked st          -- l.cancelMap.Get through a nil pointer
          | some cm =>
              .ok (some (.cancelResponse id)) st
                (match safe.Map.get cm id with
                 | some h => [h]
                 | none => [])
  | .exit =>
      match st.cancelMap with
      | none => .panicked st              -- l.cancelMap.Values through a nil pointer
      | some cm => .exited (safe.Map.values cm)   -- then os.Exit(0)
  | .didClose uri =>
      .ok none { st with documents := safe.Map.del st.documents uri } []
  | .initedNote => .ok none st []
  | .willSave => .ok none st []
  | .didSave uri =>
      match readFile uri with
      | .error _ => .err st
      | .ok content =>
          .ok none { st with documents := safe.Map.set st.documents uri content } []
  | .shutdown reqId =>
      match st.cancelMap with
      | none => .panicked st              -- l.cancelMap.Values through a nil pointer
      | some cm => .ok (some (.shutdownResponse reqId)) st (safe.Map.values cm)
  | .didChange p =>
      match p.contentChanges with
      | [] => .panicked st                -- ContentChanges[0]: index out of range
      | t :: _ =>
          .ok none { st with documents := safe.Map.set st.documents p.uri t } []
  | .initRequest reqId => .ok (some (.initResponse reqId)) st []
  | .didOpen p =>
      if hasSuffix p.uri (gostr ".go") then
        .ok none { st with documents := safe.Map.set st.documents p.uri p.text } []
      else .ok none st []
  | .unknownMethod => .err st

/-- The `$/cancelRequest` branch as written in the
internal/server/handle.go revision: after `ParseCancelParams` succeeds it
re-reads the raw id with the unchecked type assertion
`request.Params.ID.(float64)` — a runtime panic whenever the id is not a
JSON number (for instance the numeric string "123") — before the
in-flight-table lookup. -/
def cancelBranchHandleGo (st : LspState) (jid : JsonId) : HandleOutcome :=
  match ParseCancelParams jid with
  | .error _ => .err st
  | .ok id =>
      match jid with
      | .num n =>
          match st.cancelMap with
          | none => .panicked st
          | some cm =>
              .ok (some (.cancelResponse id)) st
                (match safe.Map.get cm n with
                 | some h => [h]
                 | none => [])
      | _ => .panicked st

/-- C1: the claim says per-message failures are always surfaced as error
returns and never panic, in particular for a `textDocument/didChange`
with an empty `ContentChanges` list and a `$/cancelRequest` whose id is
not a JSON number.  The code violates both: the `didChange` branch
indexes `ContentChanges[0]` unchecked (runtime panic on the empty list),
and the handle.go cancel branch asserts `ID.(float64)` unchecked (runtime
panic on the JSON string id "123" even with an initialized in-flight
table). -/
theorem c1_message_failures_can_panic :
    handle readFileNone (NewLSPHandler safe.Map.new)
        (.didChange ⟨gostr "file:///a.go", []⟩)
      = .panicked (NewLSPHandler safe.Map.new)
    ∧ cancelBranchHandleGo
        { documents := safe.Map.new, cancelMap := some safe.Map.new }
        (.str (gostr "123"))
      = .panicked
          { documents := safe.Map.new, cancelMap := some safe.Map.new } := by
  exact ⟨rfl, by decide⟩

instance {ε α : Type} [DecidableEq ε] [DecidableEq α] :
    DecidableEq (Except ε α) := fun x y =>
  match x, y with
  | .ok a, .ok b =>
      if h : a = b then .isTrue (by rw [h])
      else .isFalse (by intro e; injection e; contradiction)
  | .error a, .error b =>
      if h : a = b then .isTrue (by rw [h])
      else .isFalse (by intro e; injection e; contradiction)
  | .ok _, .error _ => .isFalse (by intro e; exact Except.noConfusion e)
  | .error _, .ok _ => .isFalse (by intro e; exact Except.noConfusion e)

/-- C2 counterexample: for the message whose compact JSON serialization is
`{}`, the claim as stated predicts the output
`Content-Length: 2\r\n\r\n{}`, but `Encode` produces
`Content-Length: 3\r\n\r\n{}\n` — `json.Encoder.Encode` appends a newline
that is counted in the declared length. -/
theorem c2_trailing_newline_counterexample :
    Encode false (gostr "{}") = .ok (gostr "Content-Length: 3\r\n\r\n{}\n")
    ∧ Encode false (gostr "{}") ≠ .ok (gostr "Content-Length: 2\r\n\r\n{}") := by
  constructor
  · decide
  · decide

/-- C2 amended: for every message whose JSON serialization succeeds and
whose context is not cancelled, `Encode` returns
`Content-Length: <n>\r\n\r\n` immediately followed by the compact JSON
serialization plus the single trailing newline the JSON encoder appends,
and the declared `n` equals the exact byte length of that body (the
serialization's byte length plus one); nothing follows beyond what the
length declares. -/
theorem c2_encode_exact_with_newline (marshalled : GoStr) :
    Encode false marshalled =
      .ok (gostr "Content-Length: "
            ++ Nat.toDigits 10 (utf8Len marshalled + 1)
            ++ gostr "\r\n\r\n" ++ (marshalled ++ ['\n']))
    ∧ utf8Len (marshalled ++ ['\n']) = utf8Len marshalled + 1 := by
  refine ⟨?_, utf8Len_append_newline marshalled⟩
  simp [Encode, utf8Len_append_newline marshalled]

/-- C3: the claim says an out-of-range line (including line 0 under the
code's one-based indexing) yields `Unknown` with no path and no error.
The code instead indexes `lines[position.Line-1]` unchecked: for
`position.Line = 0` the `uint32` subtraction wraps to `2^32 - 1`, and for
any line past the last one the index is also out of range — both are
runtime panics, shown here on the one-line source `package main`. -/
theorem c3_out_of_range_line_panics :
    ParseSourcePosition (some (gostr "package main")) 0 = .panicked
    ∧ ParseSourcePosition (some (gostr "package main")) 5 = .panicked := by
  constructor
  · decide
  · decide

/-- C4: the claim (and the spec's own example) says
`" // go:embed data.txt"` — leading space — classifies as `InComment`
with path `data.txt` after trimming leading whitespace.  The code's guard
is `strings.HasPrefix(line, "//")` on the untrimmed line, so the line is
classified `Unknown` with no path; without the leading space the regex
path does produce `InComment` with `data.txt`, which is what the code's
own `^\s*//` pattern anticipated for the trimmed case. -/
theorem c4_leading_whitespace_directive_misses :
    ParseSourcePosition (some (gostr " // go:embed data.txt")) 1 =
      .ok ⟨[], .StateUnknown, none⟩
    ∧ ParseSourcePosition (some (gostr "// go:embed data.txt")) 1 =
      .ok ⟨gostr "data.txt", .StateInComment, none⟩ := by
  constructor
  · decide
  · decide

/-- C5: the claim says a `$/cancelRequest` for an unknown identifier —
including against the state `NewLSPHandler` produces — succeeds with a
`CancelResponse` echoing the id and changes nothing.  On the
`NewLSPHandler` state the code panics instead: `cancelMap` is a nil
pointer and `Get` dereferences it.  With an initialized (hypothetical)
empty in-flight table, the branch does behave as claimed: same state, no
handle invoked, `CancelResponse 42`. -/
theorem c5_cancel_unknown_id :
    handle readFileNone (NewLSPHandler safe.Map.new)
        (.cancelRequest (.num 42))
      = .panicked (NewLSPHandler safe.Map.new)
    ∧ handle readFileNone
        { documents := safe.Map.new, cancelMap := some safe.Map.new }
        (.cancelRequest (.num 42))
      = .ok (some (.cancelResponse 42))
          { documents := safe.Map.new, cancelMap := some safe.Map.new } [] := by
  exact ⟨rfl, rfl⟩

/-- C6: the claim says `shutdown` invokes every in-flight handle and
acknowledges with the request's id echoed, and that both `shutdown` and
`exit` are safe with zero in-flight entries, including on a fresh
`NewLSPHandler` handler.  On the fresh handler both panic (nil
`cancelMap` dereferenced by `Values`).  With an initialized table holding
handles 11 and 22, `shutdown` does invoke both and acknowledges with the
echoed id. -/
theorem c6_shutdown_exit_zero_inflight :
    handle readFileNone (NewLSPHandler safe.Map.new) (.shutdown 7)
      = .panicked (NewLSPHandler safe.Map.new)
    ∧ handle readFileNone (NewLSPHandler safe.Map.new) .exit
      = .panicked (NewLSPHandler safe.Map.new)
    ∧ handle readFileNone
        { documents := safe.Map.new, cancelMap := some [(1, 11), (2, 22)] }
        (.shutdown 7)
      = .ok (some (.shutdownResponse 7))
          { documents := safe.Map.new, cancelMap := some [(1, 11), (2, 22)] }
          [11, 22] := by
  exact ⟨rfl, rfl, rfl⟩

/-- C7: a `didOpen` whose URI does not end in `.go` produces no reply and
leaves the whole state (in particular the document store) unchanged; a
`didOpen` whose URI ends in `.go` produces no reply, maps that URI to the
carried text, and leaves every other store entry unchanged. -/
theorem c7_didopen_frame (rf : GoStr → Except Unit GoStr) (st : LspState)
    (p : DidOpenParams) :
    (hasSuffix p.uri (gostr ".go") = false →
        handle rf st (.didOpen p) = .ok none st [])
    ∧ (hasSuffix p.uri (gostr ".go") = true →
        handle rf st (.didOpen p) =
          .ok none
            { st with documents := safe.Map.set st.documents p.uri p.text } []
        ∧ safe.Map.get (safe.Map.set st.documents p.uri p.text) p.uri
            = some p.text
        ∧ ∀ u, u ≠ p.uri →
            safe.Map.get (safe.Map.set st.documents p.uri p.text) u
              = safe.Map.get st.documents u) := by
  constructor
  · intro h
    simp [handle, h]
  · intro h
    exact ⟨by simp [handle, h], safe.Map.get_set_self _ _ _,
           fun u hu => safe.Map.get_set_ne _ _ _ _ hu⟩

/-- Witness for C7 at concrete inputs: a `.txt` open is ignored wholesale,
a `.go` open stores exactly the carried text. -/
theorem c7_didopen_frame_witness :
    handle readFileNone (NewLSPHandler safe.Map.new)
        (.didOpen ⟨gostr "file:///a.txt", gostr "hello"⟩)
      = .ok none (NewLSPHandler safe.Map.new) []
    ∧ handle readFileNone (NewLSPHandler safe.Map.new)
        (.didOpen ⟨gostr "file:///a.go", gostr "hello"⟩)
      = .ok none
          { NewLSPHandler safe.Map.new with
              documents :=
                safe.Map.set safe.Map.new (gostr "file:///a.go")
                  (gostr "hello") } [] :=
  ⟨(c7_didopen_frame readFileNone (NewLSPHandler safe.Map.new)
      ⟨gostr "file:///a.txt", gostr "hello"⟩).1 (by decide),
   ((c7_didopen_frame readFileNone (NewLSPHandler safe.Map.new)
      ⟨gostr "file:///a.go", gostr "hello"⟩).2 (by decide)).1⟩

/-- C9: document-store laws of `safe.Map`: `Get` right after `Set(k, v)`
returns `v` (found), `Get` right after `Delete(k)` is not-found (under
the store's key-uniqueness invariant, which every state reachable from
`NewSafeMap` satisfies), and the `Values()` snapshot has exactly `Len()`
elements. -/
theorem c9_document_store_laws (m : safe.Map GoStr GoStr) (k : GoStr)
    (v : GoStr) :
    safe.Map.get (safe.Map.set m k v) k = some v
    ∧ (safe.Map.KeysNodup m → safe.Map.get (safe.Map.del m k) k = none)
    ∧ (safe.Map.values m).length = safe.Map.len m :=
  ⟨safe.Map.get_set_self m k v,
   fun h => safe.Map.get_del_self m k h,
   safe.Map.values_len m⟩

/-- Witness for C9 on a concrete two-entry store. -/
theorem c9_document_store_laws_witness :
    safe.Map.get
        (safe.Map.set [(gostr "a", gostr "1"), (gostr "b", gostr "2")]
          (gostr "b") (gostr "9")) (gostr "b") = some (gostr "9")
    ∧ safe.Map.get
        (safe.Map.del [(gostr "a", gostr "1"), (gostr "b", gostr "2")]
          (gostr "b")) (gostr "b") = none
    ∧ (safe.Map.values
        [(gostr "a", gostr "1"), (gostr "b", gostr "2")]).length
      = safe.Map.len [(gostr "a", gostr "1"), (gostr "b", gostr "2")] :=
  have h := c9_document_store_laws
    [(gostr "a", gostr "1"), (gostr "b", gostr "2")] (gostr "b") (gostr "9")
  ⟨h.1, h.2.1 (by decide), h.2.2⟩

/-- C10: `ParseSourcePosition`'s error result is vacuous: on every input
on which the function returns (rather than panicking), the returned error
is nil. -/
theorem c10_error_vacuous (source : Option GoStr) (posLine : Nat)
    (r : ParseReturn) (h : ParseSourcePosition source posLine = .ok r) :
    r.err = none := by
  cases source with
  | none =>
      simp only [ParseSourcePosition] at h
      injection h with h2
      rw [← h2]
  | some s =>
      simp only [ParseSourcePosition] at h
      split at h
      all_goals repeat' split at h
      all_goals
        first
        | exact GoResult.noConfusion h
        | (injection h with h2; rw [← h2])

/-- Witness for C10 at a concrete input. -/
theorem c10_error_vacuous_witness :
    (⟨gostr "file.txt", State.StateInComment, none⟩ : ParseReturn).err
      = none :=
  c10_error_vacuous (some (gostr "// go:embed file.txt")) 1
    ⟨gostr "file.txt", State.StateInComment, none⟩ (by decide)

end Embedpls
